import Mathlib

/-!
Verification of the `tidb-lightning-ctl` control-plane tool
(`br/cmd/tidb-lightning-ctl/main.go`).

The Go functions perform external effects (checkpoint-store queries, SQL DDL,
import-backend RPCs, filesystem operations, fleet RPCs).  We embed them
shallowly: an `Env` record supplies the outcome of every external call, each
embedded function returns the chronological list of observable effects
(`Event`s) it performed together with its Go `error` result (`Option Err`,
`none` meaning the Go `nil` error).  Fallible constructor-style calls are
`Except Err` values in the environment.
-/

namespace LightningCtl

/-- Abstract error values produced by external collaborators (`error` in Go). -/
abbrev Err := String

/-- Liveness state of one storage-fleet node (`tikv.StoreState`). -/
inductive StoreState where
  | up
  | disconnected
  | tombstone
  | offline
deriving DecidableEq

/-- One storage-fleet node (`tikv.Store`): a network address plus its state. -/
structure Store where
  address : String
  state : StoreState
deriving DecidableEq

/-- The two recognized switch modes (`import_sstpb.SwitchMode`). -/
inductive SwitchModeVal where
  | importMode
  | normalMode
deriving DecidableEq

/-- The pre-deletion snapshot returned by `DestroyErrorCheckpoint`:
table name plus the inclusive engine-ID range allocated to the table. -/
structure TableCheckpoint where
  tableName : String
  minEngineID : Int
  maxEngineID : Int
deriving DecidableEq

/-- Observable effects performed by the embedded functions, in program order. -/
inductive Event where
  | createFile (path : String)
  | dumpTables (dest : String)
  | dumpEngines (dest : String)
  | dumpChunks (dest : String)
  | dropTable (table : String)
  | newImporter
  | unsafeCloseEngine (table : String) (engineID : Int)
  | engineCleanup (table : String) (engineID : Int)
  | localFileCleanup (engineUUID : String) (dir : String)
  | cleanupMetas (tableName : String)
  | removeCheckpoint (target : String)
  | switchModeDispatch (address : String) (m : SwitchModeVal)
  | fetchModeDispatch (address : String)
  | printError (address : String) (e : Err)
  | printMode (address : String) (m : String)
  | printNoLostTables
  | printLostTables (tables : List String)
  | importCall (engine : String) (regionSplitSize : Nat)
deriving DecidableEq

/-- Environment: the outcome of every external call the tool can make,
plus the configuration values it reads (`cfg.TikvImporter.Backend`,
`cfg.TikvImporter.SortedKVDir`, `cfg.TikvImporter.RegionSplitSize`). -/
structure Env where
  openCheckpointsDB : Except Err Unit
  taskCheckpoint : Except Err (Option Int)
  removeCheckpoint : Option Err
  dbFromConfig : Except Err Unit
  tableMetaExists : Except Err Bool
  removeTableMeta : Option Err
  taskMetaExists : Except Err Bool
  maybeCleanupAllMetas : Option Err
  newTiDBManager : Except Err Unit
  destroyErrorCheckpoint : Except Err (List TableCheckpoint)
  dropTable : String → Option Err
  backend : String
  sortedKVDir : String
  newImporter : Except Err Unit
  unsafeCloseEngine : String → Int → Except Err Unit
  engineCleanup : String → Int → Option Err
  localFileCleanup : String → Option Err
  mkdirAll : Option Err
  createFile : String → Option Err
  dumpTables : Option Err
  dumpEngines : Option Err
  dumpChunks : Option Err
  isCheckpointsDBExists : Except Err Bool
  getLocalStoringTables : Except Err (List (String × List Int))
  stores : Except Err (List Store)
  switchModeRPC : String → Option Err
  fetchModeRPC : String → Except Err String
  regionSplitSize : Nat
  closeEngineArg : Except Err Unit
  importResult : Option Err

/-- `filepath.Join dir name` for a clean non-empty `dir`. -/
def filepathJoin (dir name : String) : String :=
  dir ++ "/" ++ name

/-- Modelled from the spec: `backend.MakeUUID` (package
`br/pkg/lightning/backend`, not under `src/`) derives an engine identifier as
a pure function of the table name and the engine ID (the tag
`tableName:engineID`, which the real code further hashes into a UUID —
injectivity of the hash is not relied on here). -/
def makeUUID (tableName : String) (engineID : Int) : String :=
  tableName ++ ":" ++ toString engineID

/-- Modelled from the spec: `config.SplitRegionSize` (package
`br/pkg/lightning/config`, not under `src/`), the non-zero default region
split size (96 MiB) used when the configured value is zero. -/
def SplitRegionSize : Nat := 96 * 1024 * 1024

/-- `config.ImportMode` — the literal appears in the flag help text of
`main.go` ("values can be ['import', 'normal']"). -/
def ImportMode : String := "import"

/-- `config.NormalMode`. -/
def NormalMode : String := "normal"

/-- `config.BackendLocal` — `checkpointErrorDestroy` compares the backend
against the literal `"local"` directly. -/
def BackendLocal : String := "local"

/-- `config.BackendImporter`, compared against as the literal `"importer"`. -/
def BackendImporter : String := "importer"

/-- The inclusive engine-ID range `[lo, hi]` iterated by
`for engineID := lo; engineID <= hi; engineID++`. -/
def engineIDs (lo hi : Int) : List Int :=
  (List.range (hi + 1 - lo).toNat).map (fun i : Nat => lo + (i : Int))

/-- All `(tableName, engineID)` pairs visited by the nested engine-cleanup
loops of `checkpointErrorDestroy`, in iteration order. -/
def enginePairs (tables : List TableCheckpoint) : List (String × Int) :=
  (tables.map (fun t =>
    (engineIDs t.minEngineID t.maxEngineID).map (fun eid => (t.tableName, eid)))).flatten

/-- One best-effort step: the events it emits and its Go `error` result.
`bestEffortRun` threads the `lastErr` accumulator through a list of such
steps exactly as the Go loops do: a step's non-nil error overwrites
`lastErr`, a nil result leaves it unchanged, and the loop never aborts. -/
def bestEffortRun (init : List Event × Option Err) (ops : List (List Event × Option Err)) :
    List Event × Option Err :=
  ops.foldl
    (fun acc op =>
      (acc.1 ++ op.1, match op.2 with
        | some e => some e
        | none => acc.2))
    init

/-- The last element of `errs`, or `r0` when `errs` is empty: the value of a
Go `lastErr` variable initialized to `r0` after recording each error of
`errs` in order. -/
def lastD (r0 : Option Err) : List Err → Option Err
  | [] => r0
  | e :: l => lastD (some e) l

/-- `target.DropTable` on one table: the step of the drop loop of
`checkpointErrorDestroy` (a failure is printed and recorded in `lastErr`). -/
def dropOp (env : Env) (t : TableCheckpoint) : List Event × Option Err :=
  ([Event.dropTable t.tableName], env.dropTable t.tableName)

/-- One iteration of the importer-backend engine loop of
`checkpointErrorDestroy`: `UnsafeCloseEngine` then, only when the close
succeeded, `Cleanup` on the resulting closed engine. -/
def importerEngineOp (env : Env) (p : String × Int) : List Event × Option Err :=
  match env.unsafeCloseEngine p.1 p.2 with
  | .error e => ([Event.unsafeCloseEngine p.1 p.2], some e)
  | .ok _ =>
      ([Event.unsafeCloseEngine p.1 p.2, Event.engineCleanup p.1 p.2],
       env.engineCleanup p.1 p.2)

/-- One iteration of the local-backend engine loop of
`checkpointErrorDestroy`: derive the engine UUID with `backend.MakeUUID` and
remove its local segment via `local.File{UUID}.Cleanup(SortedKVDir)`. -/
def localEngineOp (env : Env) (p : String × Int) : List Event × Option Err :=
  ([Event.localFileCleanup (makeUUID p.1 p.2) env.sortedKVDir],
   env.localFileCleanup (makeUUID p.1 p.2))

/-- `cleanupMetas(ctx, cfg, tableName)` of `main.go`: translate `"all"` to the
empty scope, open the target DB, remove the per-table meta rows when the
table-meta table exists, then maybe clean up all metas when the task-meta
table exists.  The single `Event.cleanupMetas` records the attempt. -/
def cleanupMetas (env : Env) (tableName : String) : List Event × Option Err :=
  ([Event.cleanupMetas tableName],
   match env.dbFromConfig with
   | .error e => some e
   | .ok _ =>
     match env.tableMetaExists with
     | .error e => some e
     | .ok tableMetaExist =>
       match (if tableMetaExist then env.removeTableMeta else none) with
       | some e => some e
       | none =>
         match env.taskMetaExists with
         | .error e => some e
         | .ok exist => if exist then env.maybeCleanupAllMetas else none)

/-- `checkpointRemove(ctx, cfg, tableName)` of `main.go`: open the checkpoint
store, read the task checkpoint, run `cleanupMetas` only when the task
checkpoint is present with a non-zero task ID, then `RemoveCheckpoint`. -/
def checkpointRemove (env : Env) (tableName : String) : List Event × Option Err :=
  match env.openCheckpointsDB with
  | .error e => ([], some e)
  | .ok _ =>
    match env.taskCheckpoint with
    | .error e => ([], some e)
    | .ok taskCp =>
      match taskCp with
      | some taskID =>
        if taskID ≠ 0 then
          let m := cleanupMetas env tableName
          match m.2 with
          | some e => (m.1, some e)
          | none => (m.1 ++ [Event.removeCheckpoint tableName], env.removeCheckpoint)
        else ([Event.removeCheckpoint tableName], env.removeCheckpoint)
      | none => ([Event.removeCheckpoint tableName], env.removeCheckpoint)

/-- `checkpointDump(ctx, cfg, dumpFolder)` of `main.go`.  Note the embedded
source passes `tablesFileName` to the second `os.Create` (even though its
error message names `enginesFileName`), so the engines dump handle points at
`tables.csv`. -/
def checkpointDump (env : Env) (dumpFolder : String) : List Event × Option Err :=
  match env.openCheckpointsDB with
  | .error e => ([], some e)
  | .ok _ =>
  match env.mkdirAll with
  | some e => ([], some e)
  | none =>
  let tablesFileName := filepathJoin dumpFolder "tables.csv"
  match env.createFile tablesFileName with
  | some e => ([Event.createFile tablesFileName], some e)
  | none =>
  let tablesFile := tablesFileName
  match env.createFile tablesFileName with
  | some e => ([Event.createFile tablesFileName, Event.createFile tablesFileName], some e)
  | none =>
  let enginesFile := tablesFileName
  let chunksFileName := filepathJoin dumpFolder "chunks.csv"
  match env.createFile chunksFileName with
  | some e =>
      ([Event.createFile tablesFileName, Event.createFile tablesFileName,
        Event.createFile chunksFileName], some e)
  | none =>
  let chunksFile := chunksFileName
  let created := [Event.createFile tablesFileName, Event.createFile tablesFileName,
    Event.createFile chunksFileName]
  match env.dumpTables with
  | some e => (created ++ [Event.dumpTables tablesFile], some e)
  | none =>
  match env.dumpEngines with
  | some e => (created ++ [Event.dumpTables tablesFile, Event.dumpEngines enginesFile], some e)
  | none =>
  match env.dumpChunks with
  | some e =>
      (created ++ [Event.dumpTables tablesFile, Event.dumpEngines enginesFile,
        Event.dumpChunks chunksFile], some e)
  | none =>
      (created ++ [Event.dumpTables tablesFile, Event.dumpEngines enginesFile,
        Event.dumpChunks chunksFile], none)

/-- The importer-backend block of `checkpointErrorDestroy`: skipped unless the
configured backend is `"importer"`; a `NewImporter` failure is fatal
(`Except.error`), otherwise the engine loop threads `lastErr` through
`importerEngineOp` for every `(table, engineID)` pair. -/
def importerPhase (env : Env) (tables : List TableCheckpoint)
    (acc : List Event × Option Err) : List Event × Except Err (Option Err) :=
  if env.backend = BackendImporter then
    match env.newImporter with
    | .error e => (acc.1 ++ [Event.newImporter], .error e)
    | .ok _ =>
      let r := bestEffortRun (acc.1 ++ [Event.newImporter], acc.2)
        ((enginePairs tables).map (importerEngineOp env))
      (r.1, .ok r.2)
  else (acc.1, .ok acc.2)

/-- `checkpointErrorDestroy(ctx, cfg, tls, tableName)` of `main.go`: open the
checkpoint store and the target TiDB manager, query
`DestroyErrorCheckpoint`, best-effort drop every returned table, run the
importer-backend and local-backend engine-cleanup blocks, and finally
attempt `cleanupMetas` only when `lastErr` is still nil; the returned error
is the final `lastErr`. -/
def checkpointErrorDestroy (env : Env) (tableName : String) : List Event × Option Err :=
  match env.openCheckpointsDB with
  | .error e => ([], some e)
  | .ok _ =>
  match env.newTiDBManager with
  | .error e => ([], some e)
  | .ok _ =>
  match env.destroyErrorCheckpoint with
  | .error e => ([], some e)
  | .ok targetTables =>
    let drop := bestEffortRun ([], none) (targetTables.map (dropOp env))
    match importerPhase env targetTables drop with
    | (evs, .error e) => (evs, some e)
    | (evs, .ok lastErr1) =>
      let loc :=
        if env.backend = BackendLocal then
          bestEffortRun (evs, lastErr1) ((enginePairs targetTables).map (localEngineOp env))
        else (evs, lastErr1)
      match loc.2 with
      | none =>
        let m := cleanupMetas env tableName
        (loc.1 ++ m.1, m.2)
      | some e => (loc.1, some e)

/-- `getLocalStoringTables(ctx, cfg)` of `main.go`: the body computes the
table list (nil unless the backend is local, the store exists and the query
succeeds); the deferred reporter prints the "no table has lost intermediate
files" message exactly when the error result is nil and the list is empty. -/
def getLocalStoringTables (env : Env) : List Event × Option Err :=
  let core : List String × Option Err :=
    if env.backend ≠ BackendLocal then ([], none)
    else
      match env.isCheckpointsDBExists with
      | .error e => ([], some e)
      | .ok false => ([], none)
      | .ok true =>
        match env.openCheckpointsDB with
        | .error e => ([], some e)
        | .ok _ =>
          match env.getLocalStoringTables with
          | .error e => ([], some e)
          | .ok m => (m.map Prod.fst, none)
  match core with
  | (tables, none) =>
      (if tables = [] then [Event.printNoLostTables] else [Event.printLostTables tables],
       none)
  | (_, some e) => ([], some e)

/-- Modelled from the spec: `tikv.ForAllStores` (package
`br/pkg/lightning/tikv`, not under `src/`) discovers the fleet, excludes the
nodes in the given state, and invokes the operation on every remaining node;
a per-node operation error is written to the operator stream with the node
address and does not abort the scan nor fail the call, which fails only when
discovery itself fails. -/
def forAllStores (env : Env) (excludeState : StoreState)
    (op : Store → List Event × Option Err) : List Event × Option Err :=
  match env.stores with
  | .error e => ([], some e)
  | .ok stores =>
    (((stores.filter (fun s => decide (s.state ≠ excludeState))).map (fun s =>
        let r := op s
        r.1 ++ (match r.2 with
          | some e => [Event.printError s.address e]
          | none => []))).flatten,
     none)

/-- `switchMode(ctx, cfg, tls, mode)` of `main.go`: reject any mode string
other than `"import"` / `"normal"` before touching the fleet, otherwise
dispatch `tikv.SwitchMode` to every non-excluded store. -/
def switchMode (env : Env) (mode : String) : List Event × Option Err :=
  if mode = ImportMode then
    forAllStores env StoreState.disconnected
      (fun s => ([Event.switchModeDispatch s.address SwitchModeVal.importMode],
        env.switchModeRPC s.address))
  else if mode = NormalMode then
    forAllStores env StoreState.disconnected
      (fun s => ([Event.switchModeDispatch s.address SwitchModeVal.normalMode],
        env.switchModeRPC s.address))
  else
    ([], some ("invalid mode " ++ mode ++ ", must use import or normal"))

/-- The per-store callback of `fetchMode`: query the node's mode, print the
address with the error or with the mode, and always return a nil error. -/
def fetchModeStoreOp (env : Env) (s : Store) : List Event × Option Err :=
  match env.fetchModeRPC s.address with
  | .error e => ([Event.fetchModeDispatch s.address, Event.printError s.address e], none)
  | .ok m => ([Event.fetchModeDispatch s.address, Event.printMode s.address m], none)

/-- `fetchMode(ctx, cfg, tls)` of `main.go`. -/
def fetchMode (env : Env) : List Event × Option Err :=
  forAllStores env StoreState.disconnected (fetchModeStoreOp env)

/-- `importEngine(ctx, cfg, tls, engine)` of `main.go`: construct the
importer, close the named engine (`unsafeCloseEngine` helper, whose
argument parsing and RPC are one fallible collaborator call here), then
`Import` with the configured region split size, substituting the
`SplitRegionSize` default when the configured value is zero. -/
def importEngine (env : Env) (engine : String) : List Event × Option Err :=
  match env.newImporter with
  | .error e => ([], some e)
  | .ok _ =>
  match env.closeEngineArg with
  | .error e => ([Event.newImporter], some e)
  | .ok _ =>
    let regionSplitSize :=
      if env.regionSplitSize = 0 then SplitRegionSize else env.regionSplitSize
    ([Event.newImporter, Event.importCall engine regionSplitSize], env.importResult)

/-- The best-effort steps of `checkpointErrorDestroy` in program order:
the drop loop, then (when the backend is the importer) the importer engine
loop, then (when the backend is local) the local engine loop. -/
def bestEffortOps (env : Env) (tables : List TableCheckpoint) :
    List (List Event × Option Err) :=
  tables.map (dropOp env)
    ++ (if env.backend = BackendImporter
        then (enginePairs tables).map (importerEngineOp env) else [])
    ++ (if env.backend = BackendLocal
        then (enginePairs tables).map (localEngineOp env) else [])

/-- The chronological list of errors recorded by the best-effort phase of
`checkpointErrorDestroy` (each one overwrites `lastErr`). -/
def bestEffortErrors (env : Env) (tables : List TableCheckpoint) : List Err :=
  (bestEffortOps env tables).filterMap Prod.snd

/-- The events emitted by `checkpointErrorDestroy` before the final
`cleanupMetas` attempt, given that the preliminary queries succeeded. -/
def destroyMainTrace (env : Env) (tables : List TableCheckpoint) : List Event :=
  ((tables.map (dropOp env)).map Prod.fst).flatten
    ++ (if env.backend = BackendImporter
        then Event.newImporter ::
          (((enginePairs tables).map (importerEngineOp env)).map Prod.fst).flatten
        else [])
    ++ (if env.backend = BackendLocal
        then (((enginePairs tables).map (localEngineOp env)).map Prod.fst).flatten
        else [])

/-- All errors `checkpointErrorDestroy` encounters after its preliminary
queries succeed: the best-effort errors and, only when there were none (so
that the metadata cleanup is reached), the error of `cleanupMetas`. -/
def encounteredErrors (env : Env) (tableName : String)
    (tables : List TableCheckpoint) : List Err :=
  bestEffortErrors env tables
    ++ (if bestEffortErrors env tables = []
        then ((cleanupMetas env tableName).2).toList else [])

/-- A baseline environment in which every external call succeeds: importer
backend, a two-node fleet with one disconnected node, an uninitialized-free
task, an empty destroy result. -/
def envOK : Env :=
  { openCheckpointsDB := .ok ()
    taskCheckpoint := .ok (some 1)
    removeCheckpoint := none
    dbFromConfig := .ok ()
    tableMetaExists := .ok true
    removeTableMeta := none
    taskMetaExists := .ok true
    maybeCleanupAllMetas := none
    newTiDBManager := .ok ()
    destroyErrorCheckpoint := .ok []
    dropTable := fun _ => none
    backend := "importer"
    sortedKVDir := "/tmp/sorted-kv"
    newImporter := .ok ()
    unsafeCloseEngine := fun _ _ => .ok ()
    engineCleanup := fun _ _ => none
    localFileCleanup := fun _ => none
    mkdirAll := none
    createFile := fun _ => none
    dumpTables := none
    dumpEngines := none
    dumpChunks := none
    isCheckpointsDBExists := .ok true
    getLocalStoringTables := .ok []
    stores := .ok [⟨"s1:20160", .up⟩, ⟨"s2:20160", .disconnected⟩]
    switchModeRPC := fun _ => none
    fetchModeRPC := fun _ => .ok "Normal"
    regionSplitSize := 0
    closeEngineArg := .ok ()
    importResult := none }

/-- `envOK` with one error-state table recorded for `db.t` (engines 0..2). -/
def envTables : Env :=
  { envOK with destroyErrorCheckpoint := .ok [⟨"db.t", 0, 2⟩] }

/-- `envOK` with a TiDB backend (no engine-cleanup branch), one error-state
table, and a failing `DropTable`: exercises a recorded best-effort error. -/
def envDropFail : Env :=
  { envOK with
    backend := "tidb"
    destroyErrorCheckpoint := .ok [⟨"db.t", 0, -1⟩]
    dropTable := fun _ => some "boom" }

/-- `envOK` with the local backend and one error-state table (engines 0..1). -/
def envLocal : Env :=
  { envOK with
    backend := "local"
    destroyErrorCheckpoint := .ok [⟨"db.t", 0, 1⟩] }

/-- `envTables` with `UnsafeCloseEngine` failing on engine 1 only. -/
def envCloseFail : Env :=
  { envTables with
    unsafeCloseEngine := fun _ eid => if eid = 1 then .error "close failed" else .ok () }

/-- `envOK` with every per-node mode query failing. -/
def envFetchErr : Env :=
  { envOK with fetchModeRPC := fun _ => .error "unreachable" }

/-- `envOK` with an uninitialized task checkpoint (`TaskID == 0`). -/
def envTask0 : Env :=
  { envOK with taskCheckpoint := .ok (some 0) }

/-- `envOK` with an absent task checkpoint (`taskCp == nil`). -/
def envTaskNil : Env :=
  { envOK with taskCheckpoint := .ok none }

/-- `envOK` with a non-zero configured region split size. -/
def envSplit5 : Env :=
  { envOK with regionSplitSize := 5 }

lemma lastD_append (l1 l2 : List Err) :
    ∀ r0 : Option Err, lastD r0 (l1 ++ l2) = lastD (lastD r0 l1) l2 := by
  induction l1 with
  | nil => intro r0; rfl
  | cons e l ih => intro r0; exact ih (some e)

lemma lastD_isSome (l : List Err) : ∀ e : Err, (lastD (some e) l).isSome := by
  induction l with
  | nil => intro e; rfl
  | cons x l ih => intro e; simpa only [lastD] using ih x

lemma lastD_toList (o : Option Err) : lastD none o.toList = o := by
  cases o <;> rfl

lemma lastD_nil_of_eq_none {l : List Err} (h : lastD none l = none) : l = [] := by
  cases l with
  | nil => rfl
  | cons e l =>
    exfalso
    have hs := lastD_isSome l e
    rw [show lastD (some e) l = lastD none (e :: l) from rfl, h] at hs
    exact Bool.noConfusion hs

lemma bestEffortRun_eq (ops : List (List Event × Option Err)) :
    ∀ init : List Event × Option Err,
      bestEffortRun init ops =
        (init.1 ++ (ops.map Prod.fst).flatten, lastD init.2 (ops.filterMap Prod.snd)) := by
  induction ops with
  | nil => intro init; simp [bestEffortRun, lastD]
  | cons op rest ih =>
    intro init
    show bestEffortRun
      (init.1 ++ op.1, match op.2 with | some e => some e | none => init.2) rest = _
    rw [ih]
    cases hop : op.2 with
    | none =>
      simp only [List.map_cons, List.flatten_cons, List.filterMap_cons, hop,
        List.append_assoc]
    | some e =>
      simp only [List.map_cons, List.flatten_cons, List.filterMap_cons, hop,
        List.append_assoc, lastD]

lemma mem_engineIDs {lo hi eid : Int} : eid ∈ engineIDs lo hi ↔ lo ≤ eid ∧ eid ≤ hi := by
  constructor
  · intro h
    obtain ⟨i, hi, rfl⟩ := List.mem_map.1 h
    have hlt := List.mem_range.1 hi
    omega
  · rintro ⟨h1, h2⟩
    exact List.mem_map.2 ⟨(eid - lo).toNat, List.mem_range.2 (by omega), by omega⟩

lemma mem_enginePairs {tables : List TableCheckpoint} {t : TableCheckpoint} {eid : Int}
    (ht : t ∈ tables) (h1 : t.minEngineID ≤ eid) (h2 : eid ≤ t.maxEngineID) :
    (t.tableName, eid) ∈ enginePairs tables := by
  simp only [enginePairs, List.mem_flatten, List.mem_map]
  exact ⟨(engineIDs t.minEngineID t.maxEngineID).map (fun e => (t.tableName, e)),
    ⟨t, ht, rfl⟩, List.mem_map.2 ⟨eid, mem_engineIDs.2 ⟨h1, h2⟩, rfl⟩⟩

lemma cleanupMetas_fst (env : Env) (tn : String) :
    (cleanupMetas env tn).1 = [Event.cleanupMetas tn] := rfl

lemma destroy_run (env : Env) (tableName : String) (tables : List TableCheckpoint)
    (hopen : env.openCheckpointsDB = Except.ok ())
    (hmgr : env.newTiDBManager = Except.ok ())
    (hdest : env.destroyErrorCheckpoint = Except.ok tables)
    (himp : env.backend = BackendImporter → env.newImporter = Except.ok ()) :
    checkpointErrorDestroy env tableName =
      (destroyMainTrace env tables
         ++ (if bestEffortErrors env tables = [] then [Event.cleanupMetas tableName] else []),
       lastD none (encounteredErrors env tableName tables)) := by
  have hIL : BackendImporter ≠ BackendLocal := by decide
  unfold checkpointErrorDestroy importerPhase destroyMainTrace encounteredErrors
  by_cases hbI : env.backend = BackendImporter
  · have hbL : ¬ env.backend = BackendLocal := fun h => hIL (hbI ▸ h)
    simp only [hopen, hmgr, hdest, if_pos hbI, if_neg hbL, himp hbI,
      bestEffortRun_eq, cleanupMetas_fst, List.nil_append]
    rw [← lastD_append]
    have hBE : bestEffortErrors env tables =
        List.filterMap Prod.snd (List.map (dropOp env) tables) ++
          List.filterMap Prod.snd (List.map (importerEngineOp env) (enginePairs tables)) := by
      simp [bestEffortErrors, bestEffortOps, if_pos hbI, if_neg hbL]
    rw [← hBE]
    cases hE : lastD none (bestEffortErrors env tables) with
    | none =>
      have hnil := lastD_nil_of_eq_none hE
      simp [hnil, lastD_toList, List.append_assoc]
    | some e =>
      have hne : bestEffortErrors env tables ≠ [] := by
        intro h
        rw [h] at hE
        exact Option.noConfusion hE
      simp [hne, hE, List.append_assoc]
  · by_cases hbL : env.backend = BackendLocal
    · simp only [hopen, hmgr, hdest, if_pos hbL, if_neg hbI,
        bestEffortRun_eq, cleanupMetas_fst, List.nil_append]
      rw [← lastD_append]
      have hBE : bestEffortErrors env tables =
          List.filterMap Prod.snd (List.map (dropOp env) tables) ++
            List.filterMap Prod.snd (List.map (localEngineOp env) (enginePairs tables)) := by
        simp [bestEffortErrors, bestEffortOps, if_pos hbL, if_neg hbI]
      rw [← hBE]
      cases hE : lastD none (bestEffortErrors env tables) with
      | none =>
        have hnil := lastD_nil_of_eq_none hE
        simp [hnil, lastD_toList, List.append_assoc]
      | some e =>
        have hne : bestEffortErrors env tables ≠ [] := by
          intro h
          rw [h] at hE
          exact Option.noConfusion hE
        simp [hne, hE, List.append_assoc]
    · simp only [hopen, hmgr, hdest, if_neg hbI, if_neg hbL,
        bestEffortRun_eq, cleanupMetas_fst, List.nil_append]
      have hBE : bestEffortErrors env tables =
          List.filterMap Prod.snd (List.map (dropOp env) tables) := by
        simp [bestEffortErrors, bestEffortOps, if_neg hbI, if_neg hbL]
      rw [← hBE]
      cases hE : lastD none (bestEffortErrors env tables) with
      | none =>
        have hnil := lastD_nil_of_eq_none hE
        simp [hnil, lastD_toList, List.append_assoc]
      | some e =>
        have hne : bestEffortErrors env tables ≠ [] := by
          intro h
          rw [h] at hE
          exact Option.noConfusion hE
        simp [hne, hE, List.append_assoc]

lemma mem_main_of_drop {env : Env} {tables : List TableCheckpoint}
    {t : TableCheckpoint} (ht : t ∈ tables) :
    Event.dropTable t.tableName ∈ destroyMainTrace env tables := by
  unfold destroyMainTrace
  refine List.mem_append_left _ (List.mem_append_left _ ?_)
  exact List.mem_flatten.2 ⟨(dropOp env t).1,
    List.mem_map.2 ⟨dropOp env t, List.mem_map.2 ⟨t, ht, rfl⟩, rfl⟩,
    List.mem_singleton.2 rfl⟩

lemma mem_main_close {env : Env} {tables : List TableCheckpoint}
    (hb : env.backend = BackendImporter) {t : TableCheckpoint} {eid : Int}
    (ht : t ∈ tables) (h1 : t.minEngineID ≤ eid) (h2 : eid ≤ t.maxEngineID) :
    Event.unsafeCloseEngine t.tableName eid ∈ destroyMainTrace env tables := by
  unfold destroyMainTrace
  refine List.mem_append_left _ (List.mem_append_right _ ?_)
  rw [if_pos hb]
  refine List.mem_cons_of_mem _ ?_
  refine List.mem_flatten.2 ⟨(importerEngineOp env (t.tableName, eid)).1,
    List.mem_map.2 ⟨importerEngineOp env (t.tableName, eid),
      List.mem_map.2 ⟨(t.tableName, eid), mem_enginePairs ht h1 h2, rfl⟩, rfl⟩, ?_⟩
  cases h : env.unsafeCloseEngine t.tableName eid <;> simp [importerEngineOp, h]

lemma mem_main_engine_cleanup {env : Env} {tables : List TableCheckpoint}
    (hb : env.backend = BackendImporter) {t : TableCheckpoint} {eid : Int}
    (ht : t ∈ tables) (h1 : t.minEngineID ≤ eid) (h2 : eid ≤ t.maxEngineID)
    (hok : env.unsafeCloseEngine t.tableName eid = Except.ok ()) :
    Event.engineCleanup t.tableName eid ∈ destroyMainTrace env tables := by
  unfold destroyMainTrace
  refine List.mem_append_left _ (List.mem_append_right _ ?_)
  rw [if_pos hb]
  refine List.mem_cons_of_mem _ ?_
  refine List.mem_flatten.2 ⟨(importerEngineOp env (t.tableName, eid)).1,
    List.mem_map.2 ⟨importerEngineOp env (t.tableName, eid),
      List.mem_map.2 ⟨(t.tableName, eid), mem_enginePairs ht h1 h2, rfl⟩, rfl⟩, ?_⟩
  simp [importerEngineOp, hok]

lemma mem_main_local {env : Env} {tables : List TableCheckpoint}
    (hb : env.backend = BackendLocal) {t : TableCheckpoint} {eid : Int}
    (ht : t ∈ tables) (h1 : t.minEngineID ≤ eid) (h2 : eid ≤ t.maxEngineID) :
    Event.localFileCleanup (makeUUID t.tableName eid) env.sortedKVDir ∈
      destroyMainTrace env tables := by
  unfold destroyMainTrace
  refine List.mem_append_right _ ?_
  rw [if_pos hb]
  refine List.mem_flatten.2 ⟨(localEngineOp env (t.tableName, eid)).1,
    List.mem_map.2 ⟨localEngineOp env (t.tableName, eid),
      List.mem_map.2 ⟨(t.tableName, eid), mem_enginePairs ht h1 h2, rfl⟩, rfl⟩, ?_⟩
  simp [localEngineOp]

lemma mem_destroyMainTrace_cases {env : Env} {tables : List TableCheckpoint}
    {ev : Event} (h : ev ∈ destroyMainTrace env tables) :
    (∃ t ∈ tables, ev = Event.dropTable t.tableName) ∨
      (env.backend = BackendImporter ∧
        (ev = Event.newImporter ∨
          ∃ p ∈ enginePairs tables,
            ev = Event.unsafeCloseEngine p.1 p.2 ∨ ev = Event.engineCleanup p.1 p.2)) ∨
      (env.backend = BackendLocal ∧
        ∃ p ∈ enginePairs tables,
          ev = Event.localFileCleanup (makeUUID p.1 p.2) env.sortedKVDir) := by
  unfold destroyMainTrace at h
  rcases List.mem_append.1 h with h | hC
  · rcases List.mem_append.1 h with hA | hB
    · left
      obtain ⟨l, hl, hev⟩ := List.mem_flatten.1 hA
      obtain ⟨l', hl', rfl⟩ := List.mem_map.1 hl
      obtain ⟨t, ht, rfl⟩ := List.mem_map.1 hl'
      exact ⟨t, ht, List.mem_singleton.1 hev⟩
    · right; left
      by_cases hb : env.backend = BackendImporter
      · refine ⟨hb, ?_⟩
        rw [if_pos hb] at hB
        rcases List.mem_cons.1 hB with h0 | hB
        · exact Or.inl h0
        · right
          obtain ⟨l, hl, hev⟩ := List.mem_flatten.1 hB
          obtain ⟨l', hl', rfl⟩ := List.mem_map.1 hl
          obtain ⟨p, hp, rfl⟩ := List.mem_map.1 hl'
          refine ⟨p, hp, ?_⟩
          cases hcl : env.unsafeCloseEngine p.1 p.2 with
          | error e =>
            rw [importerEngineOp, hcl] at hev
            exact Or.inl (List.mem_singleton.1 hev)
          | ok u =>
            rw [importerEngineOp, hcl] at hev
            rcases List.mem_cons.1 hev with h1 | h1
            · exact Or.inl h1
            · exact Or.inr (List.mem_singleton.1 h1)
      · rw [if_neg hb] at hB
        exact absurd hB (List.not_mem_nil ev)
  · right; right
    by_cases hb : env.backend = BackendLocal
    · refine ⟨hb, ?_⟩
      rw [if_pos hb] at hC
      obtain ⟨l, hl, hev⟩ := List.mem_flatten.1 hC
      obtain ⟨l', hl', rfl⟩ := List.mem_map.1 hl
      obtain ⟨p, hp, rfl⟩ := List.mem_map.1 hl'
      exact ⟨p, hp, List.mem_singleton.1 hev⟩
    · rw [if_neg hb] at hC
      exact absurd hC (List.not_mem_nil ev)

lemma forAllStores_mem {env : Env} {excludeState : StoreState}
    {op : Store → List Event × Option Err} {stores : List Store} {s : Store} {ev : Event}
    (hst : env.stores = Except.ok stores) (hs : s ∈ stores)
    (hex : s.state ≠ excludeState) (hev : ev ∈ (op s).1) :
    ev ∈ (forAllStores env excludeState op).1 := by
  simp only [forAllStores, hst]
  exact List.mem_flatten.2 ⟨_,
    List.mem_map.2 ⟨s, List.mem_filter.2 ⟨hs, by simp [hex]⟩, rfl⟩,
    List.mem_append_left _ hev⟩

lemma forAllStores_ok {env : Env} {excludeState : StoreState}
    {op : Store → List Event × Option Err} {stores : List Store}
    (hst : env.stores = Except.ok stores) :
    (forAllStores env excludeState op).2 = none := by
  simp only [forAllStores, hst]

lemma mem_destroy_trace_cases (env : Env) (tableName : String)
    (tables : List TableCheckpoint)
    (hopen : env.openCheckpointsDB = Except.ok ())
    (hmgr : env.newTiDBManager = Except.ok ())
    (hdest : env.destroyErrorCheckpoint = Except.ok tables)
    (himp : env.backend = BackendImporter → env.newImporter = Except.ok ())
    {ev : Event} (hmem : ev ∈ (checkpointErrorDestroy env tableName).1) :
    ev ∈ destroyMainTrace env tables ∨ ev = Event.cleanupMetas tableName := by
  rw [destroy_run env tableName tables hopen hmgr hdest himp] at hmem
  rcases List.mem_append.1 hmem with h | h
  · exact Or.inl h
  · right
    by_cases hc : bestEffortErrors env tables = []
    · rw [if_pos hc] at h
      exact List.mem_singleton.1 h
    · rw [if_neg hc] at h
      exact absurd h (List.not_mem_nil ev)

/-- C1 (the code violates the dump-isolation requirement): in a fully
successful run of `checkpointDump` into folder `cp`, the engines dump is
written to `cp/tables.csv` — the very same destination that received the
tables dump — and `cp/engines.csv` is never created, because the source
passes `tablesFileName` to the second `os.Create`. -/
theorem checkpointDump_engines_share_tables_destination :
    checkpointDump envOK "cp" =
      ([Event.createFile "cp/tables.csv", Event.createFile "cp/tables.csv",
        Event.createFile "cp/chunks.csv", Event.dumpTables "cp/tables.csv",
        Event.dumpEngines "cp/tables.csv", Event.dumpChunks "cp/chunks.csv"], none) ∧
    Event.createFile "cp/engines.csv" ∉ (checkpointDump envOK "cp").1 := by
  decide

/-- C2 counterexample: with every preliminary query succeeding and a single
table whose `DropTable` fails (no fatal error anywhere), the run completes
the best-effort phase — the returned error is the recorded drop error — yet
`cleanupMetas` is never attempted, refuting the claim that a mere
per-table-drop failure does not suppress the metadata-cleanup attempt. -/
theorem checkpointErrorDestroy_drop_failure_skips_metas :
    (checkpointErrorDestroy envDropFail "all").1 = [Event.dropTable "db.t"] ∧
    (checkpointErrorDestroy envDropFail "all").2 = some "boom" ∧
    Event.cleanupMetas "all" ∉ (checkpointErrorDestroy envDropFail "all").1 := by
  decide

/-- C2 (amended): when the preliminary steps succeed (no fatal error), the
catalog-metadata cleanup `cleanupMetas` is attempted if and only if the
best-effort phase recorded no error at all — a per-table-drop or per-engine
failure, although non-fatal, does suppress the metadata-cleanup attempt. -/
theorem checkpointErrorDestroy_cleanupMetas_iff (env : Env) (tableName : String)
    (tables : List TableCheckpoint)
    (hopen : env.openCheckpointsDB = Except.ok ())
    (hmgr : env.newTiDBManager = Except.ok ())
    (hdest : env.destroyErrorCheckpoint = Except.ok tables)
    (himp : env.backend = BackendImporter → env.newImporter = Except.ok ()) :
    Event.cleanupMetas tableName ∈ (checkpointErrorDestroy env tableName).1 ↔
      bestEffortErrors env tables = [] := by
  constructor
  · intro hmem
    rw [destroy_run env tableName tables hopen hmgr hdest himp] at hmem
    by_contra hne
    rw [if_neg hne, List.append_nil] at hmem
    rcases mem_destroyMainTrace_cases hmem with ⟨t, _, h⟩ | ⟨_, h | ⟨p, _, h | h⟩⟩ | ⟨_, p, _, h⟩
    · exact Event.noConfusion h
    · exact Event.noConfusion h
    · exact Event.noConfusion h
    · exact Event.noConfusion h
    · exact Event.noConfusion h
  · intro hnil
    rw [destroy_run env tableName tables hopen hmgr hdest himp, if_pos hnil]
    exact List.mem_append_right _ (List.mem_singleton.2 rfl)

/-- Witness for the amended C2 theorem at a concrete environment with one
error-state table and no recorded error: the cleanup is attempted. -/
theorem checkpointErrorDestroy_cleanupMetas_iff_witness :
    Event.cleanupMetas "all" ∈ (checkpointErrorDestroy envTables "all").1 :=
  (checkpointErrorDestroy_cleanupMetas_iff envTables "all" [⟨"db.t", 0, 2⟩]
    rfl rfl rfl (fun _ => rfl)).2 (by decide)

/-- C3: once the preliminary queries succeed, every table returned by
`DestroyErrorCheckpoint` gets a `DropTable` attempt regardless of other
tables' failures, the engine-cleanup phase is still reached (importer
backend shown), and the returned error is the chronologically last error
encountered (`lastD none` of the encountered-error list; `none` if there
was none). -/
theorem checkpointErrorDestroy_drops_all_tables (env : Env) (tableName : String)
    (tables : List TableCheckpoint)
    (hopen : env.openCheckpointsDB = Except.ok ())
    (hmgr : env.newTiDBManager = Except.ok ())
    (hdest : env.destroyErrorCheckpoint = Except.ok tables)
    (himp : env.backend = BackendImporter → env.newImporter = Except.ok ()) :
    (∀ t ∈ tables, Event.dropTable t.tableName ∈ (checkpointErrorDestroy env tableName).1) ∧
    (env.backend = BackendImporter → ∀ t ∈ tables, ∀ eid : Int,
      t.minEngineID ≤ eid → eid ≤ t.maxEngineID →
      Event.unsafeCloseEngine t.tableName eid ∈ (checkpointErrorDestroy env tableName).1) ∧
    (checkpointErrorDestroy env tableName).2 =
      lastD none (encounteredErrors env tableName tables) := by
  rw [destroy_run env tableName tables hopen hmgr hdest himp]
  refine ⟨?_, ?_, rfl⟩
  · intro t ht
    exact List.mem_append_left _ (mem_main_of_drop ht)
  · intro hb t ht eid h1 h2
    exact List.mem_append_left _ (mem_main_close hb ht h1 h2)

/-- Witness for C3 at a concrete environment whose single table's drop
fails: the drop was attempted and the returned error is the last error. -/
theorem checkpointErrorDestroy_drops_all_tables_witness :
    Event.dropTable "db.t" ∈ (checkpointErrorDestroy envDropFail "all").1 ∧
    (checkpointErrorDestroy envDropFail "all").2 =
      lastD none (encounteredErrors envDropFail "all" [⟨"db.t", 0, -1⟩]) := by
  have h := checkpointErrorDestroy_drops_all_tables envDropFail "all" [⟨"db.t", 0, -1⟩]
    rfl rfl rfl (fun hb => absurd hb (by decide))
  exact ⟨h.1 ⟨"db.t", 0, -1⟩ (by decide), h.2.2⟩

/-- C5: when the task checkpoint is absent (`taskCp == nil`) or uninitialized
(`TaskID == 0`), the metadata cleanup is skipped entirely (the trace is
exactly the `RemoveCheckpoint` call) while `RemoveCheckpoint` is still
performed; when the task ID is non-zero, `cleanupMetas` is attempted and any
`RemoveCheckpoint` call happens strictly after it. -/
theorem checkpointRemove_meta_gating (env : Env) (tableName : String)
    (hopen : env.openCheckpointsDB = Except.ok ()) :
    (env.taskCheckpoint = Except.ok none →
      checkpointRemove env tableName =
        ([Event.removeCheckpoint tableName], env.removeCheckpoint)) ∧
    (env.taskCheckpoint = Except.ok (some 0) →
      checkpointRemove env tableName =
        ([Event.removeCheckpoint tableName], env.removeCheckpoint)) ∧
    (∀ id : Int, env.taskCheckpoint = Except.ok (some id) → id ≠ 0 →
      Event.cleanupMetas tableName ∈ (checkpointRemove env tableName).1 ∧
      (Event.removeCheckpoint tableName ∈ (checkpointRemove env tableName).1 →
        (checkpointRemove env tableName).1 =
          [Event.cleanupMetas tableName, Event.removeCheckpoint tableName])) := by
  refine ⟨?_, ?_, ?_⟩
  · intro h
    simp [checkpointRemove, hopen, h]
  · intro h
    simp [checkpointRemove, hopen, h]
  · intro id h hne
    cases hm : (cleanupMetas env tableName).2 with
    | some e =>
      have hr : checkpointRemove env tableName = ([Event.cleanupMetas tableName], some e) := by
        simp [checkpointRemove, hopen, h, hne, hm, cleanupMetas_fst]
      rw [hr]
      refine ⟨List.mem_singleton.2 rfl, ?_⟩
      intro hmem
      exact absurd (List.mem_singleton.1 hmem) (fun hx => Event.noConfusion hx)
    | none =>
      have hr : checkpointRemove env tableName =
          ([Event.cleanupMetas tableName, Event.removeCheckpoint tableName],
           env.removeCheckpoint) := by
        simp [checkpointRemove, hopen, h, hne, hm, cleanupMetas_fst]
      rw [hr]
      exact ⟨List.mem_cons_self _ _, fun _ => rfl⟩

/-- Witness for C5: the three cases at concrete environments (absent task,
zero task ID, task ID 1 with successful metadata cleanup). -/
theorem checkpointRemove_meta_gating_witness :
    checkpointRemove envTaskNil "all" = ([Event.removeCheckpoint "all"], none) ∧
    checkpointRemove envTask0 "all" = ([Event.removeCheckpoint "all"], none) ∧
    (checkpointRemove envOK "all").1 =
      [Event.cleanupMetas "all", Event.removeCheckpoint "all"] := by
  refine ⟨(checkpointRemove_meta_gating envTaskNil "all" rfl).1 rfl,
    (checkpointRemove_meta_gating envTask0 "all" rfl).2.1 rfl,
    ((checkpointRemove_meta_gating envOK "all" rfl).2.2 1 rfl (by decide)).2 (by decide)⟩

/-- C6: with the importer backend (and its construction succeeding), every
engine ID in the inclusive range `[MinEngineID, MaxEngineID]` of every
returned table is force-closed via `UnsafeCloseEngine`, `Cleanup` is called
on the resulting closed engine whenever the close succeeded, and when any
best-effort failure was recorded the function returns the last of those
errors — processing never aborts on a per-engine failure. -/
theorem checkpointErrorDestroy_importer_engine_cleanup (env : Env) (tableName : String)
    (tables : List TableCheckpoint)
    (hopen : env.openCheckpointsDB = Except.ok ())
    (hmgr : env.newTiDBManager = Except.ok ())
    (hdest : env.destroyErrorCheckpoint = Except.ok tables)
    (hb : env.backend = BackendImporter)
    (himp : env.newImporter = Except.ok ()) :
    (∀ t ∈ tables, ∀ eid : Int, t.minEngineID ≤ eid → eid ≤ t.maxEngineID →
      Event.unsafeCloseEngine t.tableName eid ∈ (checkpointErrorDestroy env tableName).1 ∧
      (env.unsafeCloseEngine t.tableName eid = Except.ok () →
        Event.engineCleanup t.tableName eid ∈ (checkpointErrorDestroy env tableName).1)) ∧
    (bestEffortErrors env tables ≠ [] →
      (checkpointErrorDestroy env tableName).2 = lastD none (bestEffortErrors env tables)) := by
  rw [destroy_run env tableName tables hopen hmgr hdest (fun _ => himp)]
  refine ⟨?_, ?_⟩
  · intro t ht eid h1 h2
    exact ⟨List.mem_append_left _ (mem_main_close hb ht h1 h2),
      fun hok => List.mem_append_left _ (mem_main_engine_cleanup hb ht h1 h2 hok)⟩
  · intro hne
    show lastD none (encounteredErrors env tableName tables) = _
    unfold encounteredErrors
    rw [if_neg hne, List.append_nil]

/-- Witness for C6 at a concrete environment where the close of engine 1
fails but engines 0 and 2 are still processed, and the recorded close error
is returned. -/
theorem checkpointErrorDestroy_importer_engine_cleanup_witness :
    Event.unsafeCloseEngine "db.t" 1 ∈ (checkpointErrorDestroy envCloseFail "all").1 ∧
    Event.engineCleanup "db.t" 2 ∈ (checkpointErrorDestroy envCloseFail "all").1 ∧
    (checkpointErrorDestroy envCloseFail "all").2 =
      lastD none (bestEffortErrors envCloseFail [⟨"db.t", 0, 2⟩]) := by
  have h := checkpointErrorDestroy_importer_engine_cleanup envCloseFail "all"
    [⟨"db.t", 0, 2⟩] rfl rfl rfl rfl rfl
  exact ⟨(h.1 ⟨"db.t", 0, 2⟩ (by decide) 1 (by decide) (by decide)).1,
    (h.1 ⟨"db.t", 0, 2⟩ (by decide) 2 (by decide) (by decide)).2 rfl,
    h.2 (by decide)⟩

/-- C7: with the local backend, every engine in range has its UUID derived
by the pure function `makeUUID` of (table name, engine ID) and its local
segment removed directly under `SortedKVDir`; no import backend is ever
constructed (`NewImporter` absent from the trace) and no importer-branch
engine operation ever happens — the two cleanup branches are mutually
exclusive by the configured backend kind. -/
theorem checkpointErrorDestroy_local_cleanup (env : Env) (tableName : String)
    (tables : List TableCheckpoint)
    (hopen : env.openCheckpointsDB = Except.ok ())
    (hmgr : env.newTiDBManager = Except.ok ())
    (hdest : env.destroyErrorCheckpoint = Except.ok tables)
    (hb : env.backend = BackendLocal) :
    (∀ t ∈ tables, ∀ eid : Int, t.minEngineID ≤ eid → eid ≤ t.maxEngineID →
      Event.localFileCleanup (makeUUID t.tableName eid) env.sortedKVDir ∈
        (checkpointErrorDestroy env tableName).1) ∧
    Event.newImporter ∉ (checkpointErrorDestroy env tableName).1 ∧
    (∀ tn : String, ∀ eid : Int,
      Event.unsafeCloseEngine tn eid ∉ (checkpointErrorDestroy env tableName).1 ∧
      Event.engineCleanup tn eid ∉ (checkpointErrorDestroy env tableName).1) := by
  have hIL : BackendImporter ≠ BackendLocal := by decide
  have hbni : ¬ env.backend = BackendImporter := fun h => hIL (h ▸ hb)
  have himp : env.backend = BackendImporter → env.newImporter = Except.ok () :=
    fun h => absurd h hbni
  refine ⟨?_, ?_, ?_⟩
  · intro t ht eid h1 h2
    rw [destroy_run env tableName tables hopen hmgr hdest himp]
    exact List.mem_append_left _ (mem_main_local hb ht h1 h2)
  · intro hmem
    rcases mem_destroy_trace_cases env tableName tables hopen hmgr hdest himp hmem
      with h | h
    · rcases mem_destroyMainTrace_cases h with ⟨t, _, hx⟩ | ⟨hbi, _⟩ | ⟨_, p, _, hx⟩
      · exact Event.noConfusion hx
      · exact hbni hbi
      · exact Event.noConfusion hx
    · exact Event.noConfusion h
  · intro tn eid
    constructor
    · intro hmem
      rcases mem_destroy_trace_cases env tableName tables hopen hmgr hdest himp hmem
        with h | h
      · rcases mem_destroyMainTrace_cases h with ⟨t, _, hx⟩ | ⟨hbi, _⟩ | ⟨_, p, _, hx⟩
        · exact Event.noConfusion hx
        · exact hbni hbi
        · exact Event.noConfusion hx
      · exact Event.noConfusion h
    · intro hmem
      rcases mem_destroy_trace_cases env tableName tables hopen hmgr hdest himp hmem
        with h | h
      · rcases mem_destroyMainTrace_cases h with ⟨t, _, hx⟩ | ⟨hbi, _⟩ | ⟨_, p, _, hx⟩
        · exact Event.noConfusion hx
        · exact hbni hbi
        · exact Event.noConfusion hx
      · exact Event.noConfusion h

/-- Witness for C7 at a concrete local-backend environment: engine 1 of the
single table is cleaned at its derived UUID path and no importer-branch
event occurs. -/
theorem checkpointErrorDestroy_local_cleanup_witness :
    Event.localFileCleanup (makeUUID "db.t" 1) "/tmp/sorted-kv" ∈
      (checkpointErrorDestroy envLocal "all").1 ∧
    Event.newImporter ∉ (checkpointErrorDestroy envLocal "all").1 := by
  have h := checkpointErrorDestroy_local_cleanup envLocal "all" [⟨"db.t", 0, 1⟩]
    rfl rfl rfl rfl
  exact ⟨h.1 ⟨"db.t", 0, 1⟩ (by decide) 1 (by decide) (by decide), h.2.1⟩

/-- C4: any mode string other than `import` / `normal` makes `switchMode`
return the invalid-mode error with an empty trace (no fleet operation is
dispatched), while either recognized value dispatches the corresponding
`SwitchMode` to every non-excluded store of the discovered fleet. -/
theorem switchMode_mode_gate (env : Env) (mode : String) :
    (mode ≠ ImportMode → mode ≠ NormalMode →
      switchMode env mode =
        ([], some ("invalid mode " ++ mode ++ ", must use import or normal"))) ∧
    (∀ stores : List Store, env.stores = Except.ok stores → ∀ s ∈ stores,
      s.state ≠ StoreState.disconnected →
      (mode = ImportMode →
        Event.switchModeDispatch s.address SwitchModeVal.importMode ∈
          (switchMode env mode).1) ∧
      (mode = NormalMode →
        Event.switchModeDispatch s.address SwitchModeVal.normalMode ∈
          (switchMode env mode).1)) := by
  refine ⟨?_, ?_⟩
  · intro h1 h2
    simp only [switchMode, if_neg h1, if_neg h2]
  · intro stores hst s hs hex
    constructor
    · intro hm
      have hr : switchMode env mode = forAllStores env StoreState.disconnected
          (fun s => ([Event.switchModeDispatch s.address SwitchModeVal.importMode],
            env.switchModeRPC s.address)) := by
        simp only [switchMode, if_pos hm]
      rw [hr]
      exact forAllStores_mem hst hs hex (List.mem_singleton.2 rfl)
    · intro hm
      have hne : ¬ mode = ImportMode := by
        rw [hm]
        decide
      have hr : switchMode env mode = forAllStores env StoreState.disconnected
          (fun s => ([Event.switchModeDispatch s.address SwitchModeVal.normalMode],
            env.switchModeRPC s.address)) := by
        simp only [switchMode, if_neg hne, if_pos hm]
      rw [hr]
      exact forAllStores_mem hst hs hex (List.mem_singleton.2 rfl)

/-- Witness for C4: the unknown mode `bogus` is rejected with no dispatch,
and each recognized mode reaches the non-excluded store `s1:20160`. -/
theorem switchMode_mode_gate_witness :
    switchMode envOK "bogus" =
      ([], some ("invalid mode " ++ "bogus" ++ ", must use import or normal")) ∧
    Event.switchModeDispatch "s1:20160" SwitchModeVal.importMode ∈
      (switchMode envOK "import").1 ∧
    Event.switchModeDispatch "s1:20160" SwitchModeVal.normalMode ∈
      (switchMode envOK "normal").1 := by
  refine ⟨(switchMode_mode_gate envOK "bogus").1 (by decide) (by decide),
    ((switchMode_mode_gate envOK "import").2 _ rfl ⟨"s1:20160", .up⟩ (by decide)
      (by decide)).1 rfl,
    ((switchMode_mode_gate envOK "normal").2 _ rfl ⟨"s1:20160", .up⟩ (by decide)
      (by decide)).2 rfl⟩

/-- C8: `getLocalStoringTables` succeeds and prints the "no table has lost
intermediate files" message whenever the backend is not local, or the
checkpoint store reports non-existence, or the query returns an empty
mapping — none of those situations is an error. -/
theorem getLocalStoringTables_nothing_to_show (env : Env) :
    (env.backend ≠ BackendLocal →
      getLocalStoringTables env = ([Event.printNoLostTables], none)) ∧
    (env.isCheckpointsDBExists = Except.ok false →
      getLocalStoringTables env = ([Event.printNoLostTables], none)) ∧
    (env.isCheckpointsDBExists = Except.ok true →
      env.openCheckpointsDB = Except.ok () →
      env.getLocalStoringTables = Except.ok [] →
      getLocalStoringTables env = ([Event.printNoLostTables], none)) := by
  refine ⟨?_, ?_, ?_⟩
  · intro h
    simp [getLocalStoringTables, h]
  · intro h
    by_cases hb : env.backend = BackendLocal
    · simp [getLocalStoringTables, hb, h]
    · simp [getLocalStoringTables, hb]
  · intro h1 h2 h3
    by_cases hb : env.backend = BackendLocal
    · simp [getLocalStoringTables, hb, h1, h2, h3]
    · simp [getLocalStoringTables, hb]

/-- Witness for C8: a non-local backend and a local backend with an existing
store but an empty query result both print the message and succeed. -/
theorem getLocalStoringTables_nothing_to_show_witness :
    getLocalStoringTables envOK = ([Event.printNoLostTables], none) ∧
    getLocalStoringTables envLocal = ([Event.printNoLostTables], none) :=
  ⟨(getLocalStoringTables_nothing_to_show envOK).1 (by decide),
   (getLocalStoringTables_nothing_to_show envLocal).2.2 rfl rfl rfl⟩

/-- C9: the per-store callback of `fetchMode` always reports success, a
failing per-node mode query is printed inline with the node's address, and
whenever fleet discovery succeeds the scan reaches every non-excluded store
and the overall `fetchMode` call returns no error. -/
theorem fetchMode_per_node_isolation (env : Env) :
    (∀ s : Store, (fetchModeStoreOp env s).2 = none) ∧
    (∀ s : Store, ∀ e : Err, env.fetchModeRPC s.address = Except.error e →
      Event.printError s.address e ∈ (fetchModeStoreOp env s).1) ∧
    (∀ stores : List Store, env.stores = Except.ok stores →
      (fetchMode env).2 = none ∧
      ∀ s ∈ stores, s.state ≠ StoreState.disconnected →
        Event.fetchModeDispatch s.address ∈ (fetchMode env).1) := by
  refine ⟨?_, ?_, ?_⟩
  · intro s
    cases h : env.fetchModeRPC s.address <;> simp [fetchModeStoreOp, h]
  · intro s e h
    simp [fetchModeStoreOp, h]
  · intro stores hst
    refine ⟨forAllStores_ok hst, ?_⟩
    intro s hs hex
    refine forAllStores_mem hst hs hex ?_
    cases h : env.fetchModeRPC s.address <;> simp [fetchModeStoreOp, h]

/-- Witness for C9 at an environment where every mode query fails: the node
error is printed, the node is still visited, and `fetchMode` succeeds. -/
theorem fetchMode_per_node_isolation_witness :
    (fetchMode envFetchErr).2 = none ∧
    Event.fetchModeDispatch "s1:20160" ∈ (fetchMode envFetchErr).1 ∧
    Event.printError "s1:20160" "unreachable" ∈
      (fetchModeStoreOp envFetchErr ⟨"s1:20160", .up⟩).1 := by
  have h := fetchMode_per_node_isolation envFetchErr
  have h3 := h.2.2 _ rfl
  exact ⟨h3.1, h3.2 ⟨"s1:20160", .up⟩ (by decide) (by decide),
    h.2.1 ⟨"s1:20160", .up⟩ "unreachable" rfl⟩

/-- C10: when `importEngine` reaches the import step, the region split size
passed to `Import` is the configured `RegionSplitSize` when non-zero and the
`SplitRegionSize` default when zero, and is therefore never zero. -/
theorem importEngine_region_split_size (env : Env) (engine : String)
    (h1 : env.newImporter = Except.ok ())
    (h2 : env.closeEngineArg = Except.ok ()) :
    (env.regionSplitSize ≠ 0 →
      Event.importCall engine env.regionSplitSize ∈ (importEngine env engine).1) ∧
    (env.regionSplitSize = 0 →
      Event.importCall engine SplitRegionSize ∈ (importEngine env engine).1) ∧
    (∀ sz : Nat, Event.importCall engine sz ∈ (importEngine env engine).1 → 0 < sz) := by
  have hr : importEngine env engine =
      ([Event.newImporter, Event.importCall engine
          (if env.regionSplitSize = 0 then SplitRegionSize else env.regionSplitSize)],
       env.importResult) := by
    simp [importEngine, h1, h2]
  rw [hr]
  refine ⟨?_, ?_, ?_⟩
  · intro hz
    simp [if_neg hz]
  · intro hz
    simp [if_pos hz]
  · intro sz hmem
    rcases List.mem_cons.1 hmem with h | h
    · exact Event.noConfusion h
    · have h' := List.mem_singleton.1 h
      obtain ⟨-, hsz⟩ := Event.importCall.inj h'
      by_cases hz : env.regionSplitSize = 0
      · rw [hsz, if_pos hz]
        decide
      · rw [hsz, if_neg hz]
        omega

/-- Witness for C10: zero configured size uses the default, non-zero size 5
is passed through. -/
theorem importEngine_region_split_size_witness :
    Event.importCall "db.tbl:1" SplitRegionSize ∈ (importEngine envOK "db.tbl:1").1 ∧
    Event.importCall "db.tbl:1" 5 ∈ (importEngine envSplit5 "db.tbl:1").1 :=
  ⟨(importEngine_region_split_size envOK "db.tbl:1" rfl rfl).2.1 rfl,
   (importEngine_region_split_size envSplit5 "db.tbl:1" rfl rfl).1 (by decide)⟩

end LightningCtl
